import Mathlib

/-!
Verification of the per-frame region ledger, detection cache, blur
compositor and export pipeline of the Open-Face-Blur application
(src/core/blur_manager.py, src/core/video_processor.py, and the relevant
call sites in src/ui/face_blur_ui.py), as a shallow embedding in Lean 4.

Modelling conventions:
* Python ints are `Int` (arithmetic such as `k % 2` and `k + 1` matches,
  since Python's `%` with a positive modulus agrees with `Int.emod`).
* A pixel frame is a function `Int → Int → Int` (row, column ↦ pixel
  value; colour channels are collapsed into one value, which no claim
  distinguishes).  numpy's negative-index wrap-around in slices is not
  modelled: region writes affect exactly the pixels `y1 ≤ y < y2`,
  `x1 ≤ x < x2`, which is the numpy behaviour for the coordinates the
  program produces.
* `cv2.GaussianBlur` is an external collaborator and is a parameter
  `g : Gauss` of every compositor definition: it maps the extracted
  sub-image, the (odd-corrected) kernel size and sigma to the blurred
  sub-image.
* Python dicts keyed by frame index are total functions
  `Nat → Option _`; `none` is "key absent", matching the code's
  `k in d` tests.  Dict iteration order never affects the resulting map
  for the operations embedded here.
* Mutation is explicit state passing; exceptions are `Except String`.
  A raising call returns the state as mutated up to the raise point,
  matching Python semantics.
-/

deriving instance DecidableEq for Except

namespace FaceBlur

/-- A blur region, the tuple `(x1, y1, x2, y2, sigma, ksize)` stored in
the Python lists.  Equality is structural, exactly as for Python tuples. -/
structure Region where
  x1 : Int
  y1 : Int
  x2 : Int
  y2 : Int
  sigma : Int
  ksize : Int
deriving DecidableEq, Repr

/-- A detector bounding box `(x1, y1, x2, y2)`. -/
structure Box where
  x1 : Int
  y1 : Int
  x2 : Int
  y2 : Int
deriving DecidableEq, Repr

/-- A pixel frame: row, column ↦ pixel value. -/
def Frame : Type := Int → Int → Int

/-- The external `cv2.GaussianBlur` collaborator: sub-image, kernel size,
sigma ↦ blurred sub-image. -/
def Gauss : Type := Frame → Int → Int → Frame

/-- The inline odd-correction `ksize if ksize % 2 == 1 else ksize + 1`
appearing at blur_manager.py lines 115 and 124 and at
face_blur_ui.py line 586. -/
def oddify (k : Int) : Int :=
  if k % 2 = 1 then k else k + 1

/-- One iteration of the region loops of `apply_blur`
(blur_manager.py lines 113-119 and 122-128): odd-correct the kernel
size, extract the rectangular sub-image `result[y1:y2, x1:x2]`, blur it
with the collaborator, and write the blurred sub-image back. -/
def blurOne (g : Gauss) (f : Frame) (r : Region) : Frame :=
  let k := oddify r.ksize
  let sub : Frame := fun y x => f (y + r.y1) (x + r.x1)
  let blurred := g sub k r.sigma
  fun y x =>
    if r.y1 ≤ y ∧ y < r.y2 ∧ r.x1 ≤ x ∧ x < r.x2 then
      blurred (y - r.y1) (x - r.x1)
    else f y x

/-- The `BlurManager` state (blur_manager.py lines 7-18).
`blurred_face_indices` (a Python set) is modelled as a list; no embedded
operation reads it. -/
@[ext]
structure BlurManager where
  blur_regions : List Region
  manual_regions : Nat → Option (List Region)
  detected_regions : Nat → Option (List Region)
  all_blurred : Bool
  default_sigma : Int
  default_ksize : Int
  blurred_face_indices : List Nat
  current_frame_idx : Nat

/-- `BlurManager.reset` (blur_manager.py lines 20-26). -/
def reset (m : BlurManager) : BlurManager :=
  { m with
    blur_regions := []
    manual_regions := fun _ => none
    detected_regions := fun _ => none
    all_blurred := true
    blurred_face_indices := [] }

/-- `BlurManager.add_manual_region_to_frame` (blur_manager.py lines
56-61): create the frame's list if absent, then append the tuple exactly
as given. -/
def add_manual_region_to_frame (m : BlurManager) (frame_idx : Nat)
    (x1 y1 x2 y2 sigma ksize : Int) : BlurManager :=
  { m with
    manual_regions := fun j =>
      if j = frame_idx then
        some ((m.manual_regions frame_idx).getD [] ++ [⟨x1, y1, x2, y2, sigma, ksize⟩])
      else m.manual_regions j }

/-- `BlurManager.update_blur_params` (blur_manager.py lines 63-75): set
the defaults, rewrite `sigma`/`ksize` on the flat `blur_regions` list and
on every frame of `manual_regions`.  `detected_regions` is not touched by
the source. -/
def update_blur_params (m : BlurManager) (sigma ksize : Int) : BlurManager :=
  { m with
    default_sigma := sigma
    default_ksize := ksize
    blur_regions := m.blur_regions.map fun r => { r with sigma := sigma, ksize := ksize }
    manual_regions := fun j =>
      (m.manual_regions j).map (List.map fun r => { r with sigma := sigma, ksize := ksize }) }

/-- The append loop of `copy_regions_to_next_frame` (blur_manager.py
lines 91-93 and 99-101): append each source region to the target unless
an equal region is already present, checking against the growing target. -/
def dedupAppend (tgt src : List Region) : List Region :=
  src.foldl (fun acc r => if r ∈ acc then acc else acc ++ [r]) tgt

/-- The `has_manual` / `has_detected` tests of blur_manager.py lines
81-82: the key is present and its list nonempty. -/
def hasRegions (o : Option (List Region)) : Bool :=
  match o with
  | some l => !l.isEmpty
  | none => false

/-- `BlurManager.copy_regions_to_next_frame` (blur_manager.py lines
77-103). -/
def copy_regions_to_next_frame (m : BlurManager) : Bool × BlurManager :=
  let cur := m.current_frame_idx
  let nxt := cur + 1
  let hm := hasRegions (m.manual_regions cur)
  let hd := hasRegions (m.detected_regions cur)
  if hm || hd then
    let m1 :=
      if hm then
        { m with manual_regions := fun j =>
            if j = nxt then
              some (dedupAppend ((m.manual_regions nxt).getD [])
                ((m.manual_regions cur).getD []))
            else m.manual_regions j }
      else m
    let m2 :=
      if hd then
        { m1 with detected_regions := fun j =>
            if j = nxt then
              some (dedupAppend ((m1.detected_regions nxt).getD [])
                ((m1.detected_regions cur).getD []))
            else m1.detected_regions j }
      else m1
    (true, m2)
  else (false, m)

/-- `BlurManager.apply_blur` (blur_manager.py lines 105-130): copy the
frame, record the frame index, blur every detected region for the index,
then every manual region, in list order; the `detected_faces` argument is
never read by the body.  A `none` frame index skips both loops (`None`
is not a dict key). -/
def apply_blur (g : Gauss) (m : BlurManager) (frame : Frame)
    (detected_faces : Option (List Box)) (frame_idx : Option Nat) :
    BlurManager × Frame :=
  let m :=
    match frame_idx with
    | some i => { m with current_frame_idx := i }
    | none => m
  let result :=
    match frame_idx with
    | some i =>
      match m.detected_regions i with
      | some l => l.foldl (blurOne g) frame
      | none => frame
    | none => frame
  let result :=
    match frame_idx with
    | some i =>
      match m.manual_regions i with
      | some l => l.foldl (blurOne g) result
      | none => result
    | none => result
  (m, result)

/-- The video source collaborator (`cv2.VideoCapture`).  `isOpened`
models `cap.isOpened()`; `frames i` is the outcome of positioning the
cursor at `i` and reading (`none` is a read failure).  A capture object
that failed to open reads nothing. -/
structure Cap where
  isOpened : Bool
  frame_count : Nat
  frames : Nat → Option Frame

/-- The video sink collaborator (`cv2.VideoWriter`).  `opened` is
whether construction actually opened the file; `cv2` silently drops
writes on an unopened writer and the source never checks the flag. -/
structure Sink where
  opened : Bool
  released : Bool
  frames : List Frame

/-- `VideoWriter.write`: appends the frame when the writer is open,
silently does nothing otherwise. -/
def write_sink (s : Sink) (f : Frame) : Sink :=
  if s.opened then { s with frames := s.frames ++ [f] } else s

/-- `VideoWriter.release`. -/
def release_sink (s : Sink) : Sink :=
  { s with opened := false, released := true }

/-- The face-detector collaborator: `detect_faces(frame)` returns the
threshold-filtered boxes (`none` when nothing passes) or raises.  The
parallel confidence scores are never read at the embedded call sites. -/
def Detector : Type := Frame → Except String (Option (List Box))

/-- The progress callback handed to `save_video`; it may raise. -/
def Callback : Type := Nat → Nat → Except String Unit

/-- The `VideoProcessor` state (video_processor.py lines 7-19), holding
its `BlurManager`.  `fps`/`width`/`height` are only forwarded to the
writer constructor, which is modelled as an already-constructed `Sink`,
so they are omitted. -/
structure VideoProcessor where
  blur : BlurManager
  cap : Option Cap
  frame_count : Nat
  current_frame_idx : Nat
  current_frame : Option Frame
  detected_faces : Option (List Box)
  processed_frames : Nat → Option Frame
  detection_results : Nat → Option (Option (List Box))
  detect_faces : Bool

/-- `VideoProcessor.open_video` (video_processor.py lines 21-54): store
the capture object, fail if it did not open; otherwise clear the
detection cache and the render cache, read frame 0, and when detection
is enabled run the detector on it and cache the result under index 0.
Detector exceptions propagate with the state as mutated so far. -/
def open_video (d : Detector) (vp : VideoProcessor) (c : Cap) :
    VideoProcessor × Except String Bool :=
  let vp := { vp with cap := some c }
  if c.isOpened then
    let vp := { vp with
      frame_count := c.frame_count
      current_frame_idx := 0
      processed_frames := fun _ => none
      detection_results := fun _ => none
      detected_faces := none }
    match c.frames 0 with
    | none => (vp, .ok true)
    | some f =>
      let vp := { vp with
        current_frame := some f
        current_frame_idx := 0
        blur := { vp.blur with current_frame_idx := 0 } }
      if vp.detect_faces then
        match d f with
        | .error e => (vp, .error e)
        | .ok boxes =>
          ({ vp with
              detection_results := fun j => if j = 0 then some boxes else none
              detected_faces := boxes }, .ok true)
      else (vp, .ok true)
  else (vp, .ok false)

/-- `VideoProcessor.get_frame` (video_processor.py lines 56-84): return
`none` with the state untouched when there is no capture, the index is
out of range, or the read fails; otherwise record the frame and index,
then serve detections from the cache, or on a miss run the detector when
enabled (caching its result) and leave the cache untouched when
disabled. -/
def get_frame (d : Detector) (vp : VideoProcessor) (frame_idx : Nat) :
    VideoProcessor × Except String (Option Frame) :=
  match vp.cap with
  | none => (vp, .ok none)
  | some c =>
    if frame_idx < vp.frame_count then
      match c.frames frame_idx with
      | none => (vp, .ok none)
      | some f =>
        let vp := { vp with
          current_frame := some f
          current_frame_idx := frame_idx
          blur := { vp.blur with current_frame_idx := frame_idx } }
        match vp.detection_results frame_idx with
        | some cached => ({ vp with detected_faces := cached }, .ok (some f))
        | none =>
          if vp.detect_faces then
            match d f with
            | .error e => (vp, .error e)
            | .ok boxes =>
              ({ vp with
                  detection_results := fun j =>
                    if j = frame_idx then some boxes else vp.detection_results j
                  detected_faces := boxes }, .ok (some f))
          else ({ vp with detected_faces := none }, .ok (some f))
    else (vp, .ok none)

/-- The automatic-region materialization step of
`VideoProcessor.process_current_frame` (video_processor.py lines
94-103): when detections exist for the current frame and no automatic
entry exists yet, create one Region per box stamped with the current
defaults.  (The source also guards each box against `None`; detector
results contain no `None` rows, so the guard is vacuous here.) -/
def materialize_detected (vp : VideoProcessor) : VideoProcessor :=
  match vp.detected_faces with
  | none => vp
  | some boxes =>
    match vp.blur.detected_regions vp.current_frame_idx with
    | some _ => vp
    | none =>
      { vp with blur := { vp.blur with
          detected_regions := fun j =>
            if j = vp.current_frame_idx then
              some (boxes.map fun b =>
                ⟨b.x1, b.y1, b.x2, b.y2, vp.blur.default_sigma, vp.blur.default_ksize⟩)
            else vp.blur.detected_regions j } }

/-- The per-frame loop of `save_video` (video_processor.py lines
167-182): for each index, read the frame (skipping read failures), look
up the recorded detections, composite, write to the sink, and report
progress; a raise from the detector or the callback aborts the loop. -/
def save_loop (d : Detector) (g : Gauss) (cb : Callback) (total : Nat) :
    List Nat → VideoProcessor → Sink → VideoProcessor × Sink × Except String Unit
  | [], vp, out => (vp, out, .ok ())
  | i :: rest, vp, out =>
    let r := get_frame d vp i
    match r.2 with
    | .error e => (r.1, out, .error e)
    | .ok none => save_loop d g cb total rest r.1 out
    | .ok (some f) =>
      let detected := (r.1.detection_results i).getD none
      let ab := apply_blur g r.1.blur f detected (some i)
      let vp1 := { r.1 with blur := ab.1 }
      let out1 := write_sink out ab.2
      match cb (i + 1) total with
      | .error e => (vp1, out1, .error e)
      | .ok _ => save_loop d g cb total rest vp1 out1

/-- `VideoProcessor.save_video` (video_processor.py lines 141-189):
return false when no video is loaded; otherwise run the per-frame loop
over every index, and — on completion or on a raise — release the sink
and re-read the pre-export frame index before returning true or
re-raising.  `out0` is the writer the output path produced; the source
never consults its open flag. -/
def save_video (d : Detector) (g : Gauss) (cb : Callback)
    (vp : VideoProcessor) (out0 : Sink) :
    VideoProcessor × Sink × Except String Bool :=
  match vp.cap with
  | none => (vp, out0, .ok false)
  | some _ =>
    let current_pos := vp.current_frame_idx
    let r := save_loop d g cb vp.frame_count (List.range vp.frame_count) vp out0
    let out1 := release_sink r.2.1
    let r2 := get_frame d r.1 current_pos
    match r2.2 with
    | .error e => (r2.1, out1, .error e)
    | .ok _ =>
      match r.2.2 with
      | .error e => (r2.1, out1, .error e)
      | .ok _ => (r2.1, out1, .ok true)

/-- The manual-draw release handler `FaceBlurUI.on_canvas_release`
(face_blur_ui.py lines 541-589), restricted to the stored-region
arithmetic: normalize the two corners with min/max per axis, discard
regions thinner than 10 pixels on either axis, odd-correct the kernel
size, and append through `add_manual_region_to_frame`.  (The canvas
coordinate transform applies the same scaling to both corners and is
not modelled.) -/
def on_canvas_release (m : BlurManager) (frame_idx : Nat)
    (start_x start_y end_x end_y sigma ksize : Int) : BlurManager :=
  let x1 := min start_x end_x
  let y1 := min start_y end_y
  let x2 := max start_x end_x
  let y2 := max start_y end_y
  if x2 - x1 < 10 ∨ y2 - y1 < 10 then m
  else add_manual_region_to_frame m frame_idx x1 y1 x2 y2 sigma (oddify ksize)

/-! Concrete fixtures used by witnesses and counterexamples. -/

/-- An all-zero pixel frame. -/
def zeroFrame : Frame := fun _ _ => 0

/-- A concrete stand-in for the Gaussian-blur collaborator. -/
def gId : Gauss := fun sub _ _ => sub

/-- A detector that always succeeds finding nothing. -/
def dNone : Detector := fun _ => .ok none

/-- A detector that always raises. -/
def dFail : Detector := fun _ => .error "detector failure"

/-- A progress callback that never raises. -/
def cbOk : Callback := fun _ _ => .ok ()

/-- A freshly constructed `BlurManager` (blur_manager.py lines 7-18). -/
def emptyBM : BlurManager :=
  { blur_regions := []
    manual_regions := fun _ => none
    detected_regions := fun _ => none
    all_blurred := true
    default_sigma := 30
    default_ksize := 31
    blurred_face_indices := []
    current_frame_idx := 0 }

/-- A ledger holding one manual and one automatic region at frame 0. -/
def bmPopulated : BlurManager :=
  { emptyBM with
    manual_regions := fun j => if j = 0 then some [⟨10, 10, 20, 20, 5, 7⟩] else none
    detected_regions := fun j => if j = 0 then some [⟨1, 2, 3, 4, 5, 7⟩] else none }

/-- A one-frame video source whose single frame reads successfully. -/
def cOpen1 : Cap := { isOpened := true, frame_count := 1, frames := fun _ => some zeroFrame }

/-- A two-frame source whose frame 0 is unreadable and frame 1 readable. -/
def cBad0 : Cap :=
  { isOpened := true, frame_count := 2
    frames := fun j => if j = 1 then some zeroFrame else none }

/-- A processor state with `cOpen1` loaded, detection disabled and all
caches empty. -/
def vpLoaded : VideoProcessor :=
  { blur := emptyBM
    cap := some cOpen1
    frame_count := 1
    current_frame_idx := 0
    current_frame := some zeroFrame
    detected_faces := none
    processed_frames := fun _ => none
    detection_results := fun _ => none
    detect_faces := false }

/-- A processor state with `cBad0` loaded at frame index 0 (reachable:
`open_video` keeps index 0 and returns true even when the first read
fails). -/
def vpBad0 : VideoProcessor :=
  { vpLoaded with cap := some cBad0, frame_count := 2 }

/-- A processor state carrying the populated ledger and no video. -/
def vpWithLedger : VideoProcessor :=
  { vpLoaded with blur := bmPopulated, cap := none, frame_count := 0, current_frame := none }

/-- The loaded state with a detection-cache entry at index 0 that was
never materialized into the ledger. -/
def vpLoadedCached : VideoProcessor :=
  { vpLoaded with
    detection_results := fun j => if j = 0 then some (some [⟨1, 2, 3, 4⟩]) else none
    detected_faces := some [⟨1, 2, 3, 4⟩] }

/-- The loaded one-frame state with detection enabled and an empty
detection cache. -/
def vpLoadedDetect : VideoProcessor :=
  { vpLoaded with detect_faces := true }

/-- The loaded one-frame state with detection enabled and a
detection-cache entry at index 0 that was never materialized into the
ledger. -/
def vpLoadedCachedDetect : VideoProcessor :=
  { vpLoadedCached with detect_faces := true }

/-- A sink whose open genuinely failed. -/
def closedSink : Sink := { opened := false, released := false, frames := [] }

/-- A sink whose open succeeded. -/
def openSink : Sink := { opened := true, released := false, frames := [] }

/-- A processor state about to materialize one detected box at frame 0. -/
def vpDet : VideoProcessor :=
  { vpLoaded with detected_faces := some [⟨1, 2, 3, 4⟩] }

/-! Helper lemmas shared between claims. -/

/-- The odd-correction always yields an odd integer. -/
theorem oddify_emod (k : Int) : oddify k % 2 = 1 := by
  unfold oddify
  split
  · assumption
  · omega

/-- The odd-correction is idempotent. -/
theorem oddify_idem (k : Int) : oddify (oddify k) = oddify k := by
  unfold oddify
  by_cases h : k % 2 = 1
  · simp [h]
  · have h2 : (k + 1) % 2 = 1 := by omega
    simp [h, h2]

/-- The compositor's per-region step depends on the stored kernel size
only through the odd-correction. -/
theorem blurOne_oddify (g : Gauss) (f : Frame) (r : Region) :
    blurOne g f r = blurOne g f { r with ksize := oddify r.ksize } := by
  unfold blurOne
  simp [oddify_idem]

/-- Unfolding `dedupAppend` one source element at a time. -/
theorem dedupAppend_cons (tgt : List Region) (r : Region) (src : List Region) :
    dedupAppend tgt (r :: src) = dedupAppend (if r ∈ tgt then tgt else tgt ++ [r]) src := rfl

/-- Elements of the target survive the dedup-append. -/
theorem mem_dedupAppend_left {a : Region} (src : List Region) :
    ∀ {tgt : List Region}, a ∈ tgt → a ∈ dedupAppend tgt src := by
  induction src with
  | nil => intro tgt h; exact h
  | cons r src ih =>
    intro tgt h
    rw [dedupAppend_cons]
    apply ih
    split
    · exact h
    · exact List.mem_append_left _ h

/-- Elements of the source end up in the dedup-append. -/
theorem mem_dedupAppend_right {a : Region} (src : List Region) :
    ∀ {tgt : List Region}, a ∈ src → a ∈ dedupAppend tgt src := by
  induction src with
  | nil => intro tgt h; cases h
  | cons r src ih =>
    intro tgt h
    rw [dedupAppend_cons]
    rcases List.mem_cons.mp h with rfl | h
    · apply mem_dedupAppend_left
      split
      · assumption
      · exact List.mem_append_right _ (List.mem_singleton.mpr rfl)
    · exact ih h

/-- Appending a source whose elements are all already present is a
no-op. -/
theorem dedupAppend_eq_self (src : List Region) :
    ∀ {tgt : List Region}, (∀ a ∈ src, a ∈ tgt) → dedupAppend tgt src = tgt := by
  induction src with
  | nil => intro tgt _; rfl
  | cons r src ih =>
    intro tgt h
    rw [dedupAppend_cons, if_pos (h r (List.mem_cons_self r src))]
    exact ih fun a ha => h a (List.mem_cons_of_mem _ ha)

/-- `add_manual_region_to_frame` appends the region tuple exactly as
given to the frame's (possibly fresh) list. -/
theorem add_manual_spec (m : BlurManager) (i : Nat) (x1 y1 x2 y2 s k : Int) :
    (add_manual_region_to_frame m i x1 y1 x2 y2 s k).manual_regions i
      = some ((m.manual_regions i).getD [] ++ [⟨x1, y1, x2, y2, s, k⟩]) := by
  simp [add_manual_region_to_frame]

/-- C1: evaluation of `update_blur_params` at a ledger holding one
automatic and one manual region at frame 0.  The manual region's
`sigma`/`ksize` are rewritten to the new defaults while the automatic
(`detected_regions`) region keeps its old parameters with its
coordinates — contradicting the claimed global retrofit over both
collections, and the method's own docstring ("Update blur strength for
all regions"). -/
theorem c1_update_defaults_skips_detected :
    (update_blur_params bmPopulated 9 11).detected_regions 0 = some [⟨1, 2, 3, 4, 5, 7⟩] ∧
    (update_blur_params bmPopulated 9 11).manual_regions 0 = some [⟨10, 10, 20, 20, 9, 11⟩] ∧
    (update_blur_params bmPopulated 9 11).default_sigma = 9 ∧
    (update_blur_params bmPopulated 9 11).default_ksize = 11 := by
  decide

/-- C2 counterexample: the ledger write path
`add_manual_region_to_frame` stores the even kernel size 4 exactly as
given, not incremented to 5 as the claim demands. -/
theorem c2_even_kernel_stored_cex :
    (add_manual_region_to_frame emptyBM 0 0 0 20 20 1 4).manual_regions 0
      = some [⟨0, 0, 20, 20, 1, 4⟩] ∧ (4 : Int) ≠ 4 + 1 := by
  decide

/-- C3: evaluation of `save_video` on a loaded one-frame video with a
sink whose open genuinely failed.  No frame is written, yet the
pipeline returns `true` — contradicting both the claim and the method's
own docstring ("True if video saved successfully, False otherwise"). -/
theorem c3_sink_open_failure_returns_true :
    (save_video dNone gId cbOk vpLoaded closedSink).2.2 = .ok true ∧
    (save_video dNone gId cbOk vpLoaded closedSink).2.1.frames.length = 0 := by
  decide

/-- C4 counterexample: opening a video successfully (return `true`)
over a state whose ledger holds a manual and an automatic region at
frame 0 leaves both ledger collections fully populated — they are not
cleared by `open_video`. -/
theorem c4_open_does_not_clear_ledger_cex :
    (open_video dNone vpWithLedger cOpen1).2 = .ok true ∧
    (open_video dNone vpWithLedger cOpen1).1.blur.manual_regions 0
      = some [⟨10, 10, 20, 20, 5, 7⟩] ∧
    (open_video dNone vpWithLedger cOpen1).1.blur.detected_regions 0
      = some [⟨1, 2, 3, 4, 5, 7⟩] := by
  decide

/-- C5 counterexample: a `get_frame` miss with detection disabled
stores nothing in the detection cache (the claim demands a cached
`None` entry), and consequently a later lookup at the same index with
detection re-enabled still invokes the detector — here one that
raises. -/
theorem c5_disabled_miss_not_cached_cex :
    (get_frame dFail vpLoaded 0).1.detection_results 0 = none ∧
    (get_frame dFail vpLoaded 0).1.detected_faces = none ∧
    (get_frame dFail { (get_frame dFail vpLoaded 0).1 with detect_faces := true } 0).2
      = Except.error "detector failure" :=
  ⟨by decide, by decide, rfl⟩

/-- C6 counterexample: the ledger operation `add_manual_region_to_frame`
given the corners in reversed order stores them exactly as given, with
`x1 = 5 > 2 = x2` — no min/max normalization happens in the ledger. -/
theorem c6_addmanual_no_normalization_cex :
    (add_manual_region_to_frame emptyBM 0 5 7 2 3 1 3).manual_regions 0
      = some [⟨5, 7, 2, 3, 1, 3⟩] ∧ ¬((5 : Int) ≤ 2) := by
  decide

/-- C7 counterexample: exporting from a source whose frame 0 is
unreadable while the pre-export position is 0 (reachable, since
`open_video` returns true and keeps index 0 even when its first read
fails).  The export completes returning `true`, but the restore read
fails and the read position is left at 1, not restored to 0. -/
theorem c7_position_not_restored_cex :
    (save_video dNone gId cbOk vpBad0 openSink).1.current_frame_idx = 1 ∧
    vpBad0.current_frame_idx = 0 ∧
    (save_video dNone gId cbOk vpBad0 openSink).2.2 = .ok true := by
  decide

/-- C2 (amended): every ledger write path stores the kernel size
exactly as given — manual addition appends the given `k`, the defaults
update stamps the given `k` onto the defaults and every manual region,
and detection materialization stamps the current default unchanged —
while the odd-correction `k ↦ k` (odd) / `k ↦ k+1` (even) is applied at
blur time: the compositor's per-region step uses `oddify ksize`, which
is always odd. -/
theorem c2_kernel_stored_as_given :
    (∀ (m : BlurManager) (i : Nat) (x1 y1 x2 y2 s k : Int),
      (add_manual_region_to_frame m i x1 y1 x2 y2 s k).manual_regions i
        = some ((m.manual_regions i).getD [] ++ [⟨x1, y1, x2, y2, s, k⟩])) ∧
    (∀ (m : BlurManager) (s k : Int),
      (update_blur_params m s k).default_ksize = k ∧
      ∀ i, (update_blur_params m s k).manual_regions i
        = (m.manual_regions i).map (List.map fun r => { r with sigma := s, ksize := k })) ∧
    (∀ (vp : VideoProcessor) (boxes : List Box),
      vp.detected_faces = some boxes →
      vp.blur.detected_regions vp.current_frame_idx = none →
      (materialize_detected vp).blur.detected_regions vp.current_frame_idx
        = some (boxes.map fun b =>
            ⟨b.x1, b.y1, b.x2, b.y2, vp.blur.default_sigma, vp.blur.default_ksize⟩)) ∧
    (∀ k : Int, oddify k % 2 = 1) ∧
    (∀ (g : Gauss) (f : Frame) (r : Region),
      blurOne g f r = blurOne g f { r with ksize := oddify r.ksize }) := by
  refine ⟨add_manual_spec, ?_, ?_, oddify_emod, blurOne_oddify⟩
  · intro m s k
    exact ⟨rfl, fun i => rfl⟩
  · intro vp boxes h1 h2
    simp [materialize_detected, h1, h2]

/-- C2 witness: the materialization conjunct of
`c2_kernel_stored_as_given` applied at a concrete state with one
detected box and empty ledger, its hypotheses discharged by `rfl`. -/
theorem c2_kernel_stored_as_given_witness :
    vpDet.detected_faces = some [⟨1, 2, 3, 4⟩] ∧
    vpDet.blur.detected_regions 0 = none ∧
    (materialize_detected vpDet).blur.detected_regions 0 = some [⟨1, 2, 3, 4, 30, 31⟩] :=
  ⟨rfl, rfl, c2_kernel_stored_as_given.2.2.1 vpDet [⟨1, 2, 3, 4⟩] rfl rfl⟩

/-- C6 (amended): the ledger operation stores the corners exactly as
given; the UI drag-release handler normalizes the two corner points by
min/max per axis before calling it, so every region it appends — as
opposed to regions already present — satisfies `x1 ≤ x2` and
`y1 ≤ y2` regardless of drag direction. -/
theorem c6_corners_normalized_in_ui :
    (∀ (m : BlurManager) (i : Nat) (x1 y1 x2 y2 s k : Int),
      (add_manual_region_to_frame m i x1 y1 x2 y2 s k).manual_regions i
        = some ((m.manual_regions i).getD [] ++ [⟨x1, y1, x2, y2, s, k⟩])) ∧
    (∀ (m : BlurManager) (i : Nat) (sx sy ex ey s k : Int),
      ∀ r ∈ ((on_canvas_release m i sx sy ex ey s k).manual_regions i).getD [],
        r ∈ (m.manual_regions i).getD [] ∨ (r.x1 ≤ r.x2 ∧ r.y1 ≤ r.y2)) := by
  refine ⟨add_manual_spec, ?_⟩
  intro m i sx sy ex ey s k r hr
  simp only [on_canvas_release] at hr
  split at hr
  · exact Or.inl hr
  · rw [add_manual_spec] at hr
    simp only [Option.getD_some, List.mem_append, List.mem_singleton] at hr
    rcases hr with h | h
    · exact Or.inl h
    · subst h
      exact Or.inr ⟨min_le_max, min_le_max⟩

/-- C6 witness: `c6_corners_normalized_in_ui` applied to a concrete
drag made right-to-left and bottom-to-top; the region the UI stores is
the normalized one, and the membership hypothesis is discharged by
`decide`. -/
theorem c6_corners_normalized_in_ui_witness :
    (⟨0, 5, 12, 30, 1, 3⟩ : Region)
      ∈ ((on_canvas_release emptyBM 0 12 30 0 5 1 3).manual_regions 0).getD [] ∧
    ((⟨0, 5, 12, 30, 1, 3⟩ : Region) ∈ (emptyBM.manual_regions 0).getD [] ∨
      ((0 : Int) ≤ 12 ∧ (5 : Int) ≤ 30)) :=
  ⟨by decide,
    c6_corners_normalized_in_ui.2 emptyBM 0 12 30 0 5 1 3 ⟨0, 5, 12, 30, 1, 3⟩ (by decide)⟩

/-- C9: the compositor records the frame index, leaves the ledger's
collections untouched, and produces exactly the left fold of the
per-region blur-and-write-back step over the automatic regions followed
by the manual regions of that index, each in insertion order, starting
from (a copy of) the input frame — so pixels covered by several regions
are blurred once per covering region in that fixed sequence, and the
input frame value is never written to. -/
theorem c9_apply_blur_order (g : Gauss) (m : BlurManager) (frame : Frame)
    (df : Option (List Box)) (i : Nat) :
    apply_blur g m frame df (some i)
      = ({ m with current_frame_idx := i },
         ((m.detected_regions i).getD [] ++ (m.manual_regions i).getD []).foldl
           (blurOne g) frame) := by
  unfold apply_blur
  cases hd : m.detected_regions i <;> cases hm : m.manual_regions i <;>
    simp [hd, hm, List.foldl_append]

/-- The forward copy never writes at the source index (the target index
is `current + 1`), so the source frame's manual collection is
unchanged. -/
theorem cf_source_manual (m : BlurManager) :
    (copy_regions_to_next_frame m).2.manual_regions m.current_frame_idx
      = m.manual_regions m.current_frame_idx := by
  have hne : m.current_frame_idx ≠ m.current_frame_idx + 1 := by omega
  simp only [copy_regions_to_next_frame]
  split
  · split
    · split <;> simp [hne]
    · split <;> simp [hne]
  · rfl

/-- The forward copy never writes at the source index, detected
collection. -/
theorem cf_source_detected (m : BlurManager) :
    (copy_regions_to_next_frame m).2.detected_regions m.current_frame_idx
      = m.detected_regions m.current_frame_idx := by
  have hne : m.current_frame_idx ≠ m.current_frame_idx + 1 := by omega
  simp only [copy_regions_to_next_frame]
  split
  · split
    · split <;> simp [hne]
    · split <;> simp [hne]
  · rfl

/-- The forward copy does not move the current frame index. -/
theorem cf_idx (m : BlurManager) :
    (copy_regions_to_next_frame m).2.current_frame_idx = m.current_frame_idx := by
  simp only [copy_regions_to_next_frame]
  split
  · split <;> split <;> rfl
  · rfl

/-- The forward copy leaves every field but the two region maps and the
return flag unchanged. -/
theorem cf_fields (m : BlurManager) :
    (copy_regions_to_next_frame m).2.blur_regions = m.blur_regions ∧
    (copy_regions_to_next_frame m).2.all_blurred = m.all_blurred ∧
    (copy_regions_to_next_frame m).2.default_sigma = m.default_sigma ∧
    (copy_regions_to_next_frame m).2.default_ksize = m.default_ksize ∧
    (copy_regions_to_next_frame m).2.blurred_face_indices = m.blurred_face_indices := by
  simp only [copy_regions_to_next_frame]
  split
  · split <;> split <;> exact ⟨rfl, rfl, rfl, rfl, rfl⟩
  · exact ⟨rfl, rfl, rfl, rfl, rfl⟩

/-- With no manual regions at the source frame, the manual collection
map is untouched by the forward copy. -/
theorem cf_manual_neg (m : BlurManager)
    (h : hasRegions (m.manual_regions m.current_frame_idx) = false) :
    (copy_regions_to_next_frame m).2.manual_regions = m.manual_regions := by
  simp only [copy_regions_to_next_frame, h]
  by_cases hd : hasRegions (m.detected_regions m.current_frame_idx) = true <;>
    simp [hd]

/-- With manual regions at the source frame, the forward copy rewrites
the manual map exactly at the next index with the dedup-append of the
source list. -/
theorem cf_manual_pos (m : BlurManager)
    (h : hasRegions (m.manual_regions m.current_frame_idx) = true) :
    (copy_regions_to_next_frame m).2.manual_regions = fun j =>
      if j = m.current_frame_idx + 1 then
        some (dedupAppend ((m.manual_regions (m.current_frame_idx + 1)).getD [])
          ((m.manual_regions m.current_frame_idx).getD []))
      else m.manual_regions j := by
  simp only [copy_regions_to_next_frame, h]
  by_cases hd : hasRegions (m.detected_regions m.current_frame_idx) = true <;>
    simp [hd]

/-- With no automatic regions at the source frame, the detected
collection map is untouched by the forward copy. -/
theorem cf_detected_neg (m : BlurManager)
    (h : hasRegions (m.detected_regions m.current_frame_idx) = false) :
    (copy_regions_to_next_frame m).2.detected_regions = m.detected_regions := by
  simp only [copy_regions_to_next_frame, h]
  by_cases hm : hasRegions (m.manual_regions m.current_frame_idx) = true <;>
    simp [hm]

/-- With automatic regions at the source frame, the forward copy
rewrites the detected map exactly at the next index with the
dedup-append of the source list. -/
theorem cf_detected_pos (m : BlurManager)
    (h : hasRegions (m.detected_regions m.current_frame_idx) = true) :
    (copy_regions_to_next_frame m).2.detected_regions = fun j =>
      if j = m.current_frame_idx + 1 then
        some (dedupAppend ((m.detected_regions (m.current_frame_idx + 1)).getD [])
          ((m.detected_regions m.current_frame_idx).getD []))
      else m.detected_regions j := by
  simp only [copy_regions_to_next_frame, h]
  by_cases hm : hasRegions (m.manual_regions m.current_frame_idx) = true <;>
    simp [hm]

/-- C8: `copy_regions_to_next_frame` is idempotent — a second
invocation on the same current frame leaves the ledger state exactly as
the first left it (the structural-equality dedup appends nothing new) —
and on a frame with no manual and no automatic regions (key absent or
list empty) it returns `false` and leaves the state, in particular the
next frame's collections, entirely unchanged. -/
theorem c8_copy_forward_idempotent :
    (∀ m : BlurManager,
      (copy_regions_to_next_frame (copy_regions_to_next_frame m).2).2
        = (copy_regions_to_next_frame m).2) ∧
    (∀ m : BlurManager,
      hasRegions (m.manual_regions m.current_frame_idx) = false →
      hasRegions (m.detected_regions m.current_frame_idx) = false →
      copy_regions_to_next_frame m = (false, m)) := by
  have empty_case : ∀ m : BlurManager,
      hasRegions (m.manual_regions m.current_frame_idx) = false →
      hasRegions (m.detected_regions m.current_frame_idx) = false →
      copy_regions_to_next_frame m = (false, m) := by
    intro m h1 h2
    unfold copy_regions_to_next_frame
    simp [h1, h2]
  refine ⟨?_, empty_case⟩
  intro m
  have hidx := cf_idx m
  have hsm := cf_source_manual m
  have hsd := cf_source_detected m
  have hne : m.current_frame_idx ≠ m.current_frame_idx + 1 := by omega
  refine BlurManager.ext ?_ ?_ ?_ ?_ ?_ ?_ ?_ ?_
  · exact (cf_fields _).1
  · by_cases hm : hasRegions (m.manual_regions m.current_frame_idx) = true
    · have hm2 : hasRegions
          ((copy_regions_to_next_frame m).2.manual_regions
            (copy_regions_to_next_frame m).2.current_frame_idx) = true := by
        rw [hidx, hsm]; exact hm
      rw [cf_manual_pos _ hm2, cf_manual_pos m hm, hidx]
      funext j
      by_cases hj : j = m.current_frame_idx + 1
      · subst hj
        simp only [if_pos rfl, if_neg hne, Option.getD_some]
        exact congrArg some
          (dedupAppend_eq_self _ fun a ha => mem_dedupAppend_right _ ha)
      · simp [hj]
    · have hm' : hasRegions (m.manual_regions m.current_frame_idx) = false := by
        simpa using hm
      have hm2 : hasRegions
          ((copy_regions_to_next_frame m).2.manual_regions
            (copy_regions_to_next_frame m).2.current_frame_idx) = false := by
        rw [hidx, hsm]; exact hm'
      rw [cf_manual_neg _ hm2]
  · by_cases hd : hasRegions (m.detected_regions m.current_frame_idx) = true
    · have hd2 : hasRegions
          ((copy_regions_to_next_frame m).2.detected_regions
            (copy_regions_to_next_frame m).2.current_frame_idx) = true := by
        rw [hidx, hsd]; exact hd
      rw [cf_detected_pos _ hd2, cf_detected_pos m hd, hidx]
      funext j
      by_cases hj : j = m.current_frame_idx + 1
      · subst hj
        simp only [if_pos rfl, if_neg hne, Option.getD_some]
        exact congrArg some
          (dedupAppend_eq_self _ fun a ha => mem_dedupAppend_right _ ha)
      · simp [hj]
    · have hd' : hasRegions (m.detected_regions m.current_frame_idx) = false := by
        simpa using hd
      have hd2 : hasRegions
          ((copy_regions_to_next_frame m).2.detected_regions
            (copy_regions_to_next_frame m).2.current_frame_idx) = false := by
        rw [hidx, hsd]; exact hd'
      rw [cf_detected_neg _ hd2]
  · exact (cf_fields _).2.1
  · exact (cf_fields _).2.2.1
  · exact (cf_fields _).2.2.2.1
  · exact (cf_fields _).2.2.2.2
  · exact cf_idx _

/-- C8 witness: `c8_copy_forward_idempotent` applied to the populated
ledger for idempotence and to the fresh ledger for the empty no-op,
discharging the emptiness hypotheses by `rfl`. -/
theorem c8_copy_forward_idempotent_witness :
    hasRegions (emptyBM.manual_regions emptyBM.current_frame_idx) = false ∧
    hasRegions (emptyBM.detected_regions emptyBM.current_frame_idx) = false ∧
    (copy_regions_to_next_frame (copy_regions_to_next_frame bmPopulated).2).2
      = (copy_regions_to_next_frame bmPopulated).2 ∧
    copy_regions_to_next_frame emptyBM = (false, emptyBM) :=
  ⟨rfl, rfl, c8_copy_forward_idempotent.1 bmPopulated,
    c8_copy_forward_idempotent.2 emptyBM rfl rfl⟩

/-- `get_frame` with no capture object is a no-op returning `none`. -/
theorem gf_cap_none {d : Detector} {vp : VideoProcessor} {i : Nat}
    (h : vp.cap = none) : get_frame d vp i = (vp, .ok none) := by
  simp [get_frame, h]

/-- `get_frame` outside the frame range is a no-op returning `none`. -/
theorem gf_out_of_range {d : Detector} {vp : VideoProcessor} {i : Nat} {c : Cap}
    (hc : vp.cap = some c) (hi : ¬ i < vp.frame_count) :
    get_frame d vp i = (vp, .ok none) := by
  simp [get_frame, hc, hi]

/-- `get_frame` on a failed read is a no-op returning `none`. -/
theorem gf_read_fail {d : Detector} {vp : VideoProcessor} {i : Nat} {c : Cap}
    (hc : vp.cap = some c) (hi : i < vp.frame_count) (hf : c.frames i = none) :
    get_frame d vp i = (vp, .ok none) := by
  simp [get_frame, hc, hi, hf]

/-- `get_frame` on a detection-cache hit: records the frame and index
and serves the cached entry — the detector does not occur in the
result, and the cache itself is unchanged. -/
theorem gf_hit {d : Detector} {vp : VideoProcessor} {i : Nat} {c : Cap} {f : Frame}
    {cached : Option (List Box)}
    (hc : vp.cap = some c) (hi : i < vp.frame_count) (hf : c.frames i = some f)
    (hcache : vp.detection_results i = some cached) :
    get_frame d vp i
      = ({ vp with
            current_frame := some f
            current_frame_idx := i
            blur := { vp.blur with current_frame_idx := i }
            detected_faces := cached }, .ok (some f)) := by
  simp [get_frame, hc, hi, hf, hcache]

/-- `get_frame` on a miss with detection enabled and a succeeding
detector: the filtered result (possibly `none`) is stored under the
index. -/
theorem gf_miss_on {d : Detector} {vp : VideoProcessor} {i : Nat} {c : Cap} {f : Frame}
    {boxes : Option (List Box)}
    (hc : vp.cap = some c) (hi : i < vp.frame_count) (hf : c.frames i = some f)
    (hcache : vp.detection_results i = none) (hon : vp.detect_faces = true)
    (hd : d f = .ok boxes) :
    get_frame d vp i
      = ({ vp with
            current_frame := some f
            current_frame_idx := i
            blur := { vp.blur with current_frame_idx := i }
            detection_results := fun j => if j = i then some boxes else vp.detection_results j
            detected_faces := boxes }, .ok (some f)) := by
  simp [get_frame, hc, hi, hf, hcache, hon, hd]

/-- `get_frame` on a miss with detection enabled and a raising
detector: the exception propagates with the frame and index already
recorded. -/
theorem gf_miss_err {d : Detector} {vp : VideoProcessor} {i : Nat} {c : Cap} {f : Frame}
    {e : String}
    (hc : vp.cap = some c) (hi : i < vp.frame_count) (hf : c.frames i = some f)
    (hcache : vp.detection_results i = none) (hon : vp.detect_faces = true)
    (hd : d f = .error e) :
    get_frame d vp i
      = ({ vp with
            current_frame := some f
            current_frame_idx := i
            blur := { vp.blur with current_frame_idx := i } }, .error e) := by
  simp [get_frame, hc, hi, hf, hcache, hon, hd]

/-- `get_frame` on a miss with detection disabled: the current
detections become `none` but nothing is stored in the cache. -/
theorem gf_miss_off {d : Detector} {vp : VideoProcessor} {i : Nat} {c : Cap} {f : Frame}
    (hc : vp.cap = some c) (hi : i < vp.frame_count) (hf : c.frames i = some f)
    (hcache : vp.detection_results i = none) (hoff : vp.detect_faces = false) :
    get_frame d vp i
      = ({ vp with
            current_frame := some f
            current_frame_idx := i
            blur := { vp.blur with current_frame_idx := i }
            detected_faces := none }, .ok (some f)) := by
  simp [get_frame, hc, hi, hf, hcache, hoff]

/-- Whenever the requested frame is readable, `get_frame` sets the read
position to the requested index — on every cache/mode/detector branch,
including the raising one. -/
theorem gf_idx_set {d : Detector} {vp : VideoProcessor} {i : Nat} {c : Cap} {f : Frame}
    (hc : vp.cap = some c) (hi : i < vp.frame_count) (hf : c.frames i = some f) :
    (get_frame d vp i).1.current_frame_idx = i := by
  cases hcache : vp.detection_results i with
  | some cached => rw [gf_hit hc hi hf hcache]
  | none =>
    cases hdf : vp.detect_faces with
    | false => rw [gf_miss_off hc hi hf hcache hdf]
    | true =>
      cases hd : d f with
      | error e => rw [gf_miss_err hc hi hf hcache hdf hd]
      | ok boxes => rw [gf_miss_on hc hi hf hcache hdf hd]

/-- `get_frame` never changes the capture, the frame count, the
detection mode, the render cache or the ledger's collections. -/
theorem gf_preserved (d : Detector) (vp : VideoProcessor) (i : Nat) :
    (get_frame d vp i).1.cap = vp.cap ∧
    (get_frame d vp i).1.frame_count = vp.frame_count ∧
    (get_frame d vp i).1.detect_faces = vp.detect_faces ∧
    (get_frame d vp i).1.processed_frames = vp.processed_frames ∧
    (get_frame d vp i).1.blur.manual_regions = vp.blur.manual_regions ∧
    (get_frame d vp i).1.blur.detected_regions = vp.blur.detected_regions := by
  cases hc : vp.cap with
  | none => rw [gf_cap_none hc]; exact ⟨hc, rfl, rfl, rfl, rfl, rfl⟩
  | some c =>
    by_cases hi : i < vp.frame_count
    · cases hf : c.frames i with
      | none => rw [gf_read_fail hc hi hf]; exact ⟨hc, rfl, rfl, rfl, rfl, rfl⟩
      | some f =>
        cases hcache : vp.detection_results i with
        | some cached =>
          rw [gf_hit hc hi hf hcache]; exact ⟨hc, rfl, rfl, rfl, rfl, rfl⟩
        | none =>
          cases hdf : vp.detect_faces with
          | false =>
            rw [gf_miss_off hc hi hf hcache hdf]; exact ⟨hc, rfl, hdf, rfl, rfl, rfl⟩
          | true =>
            cases hd : d f with
            | error e =>
              rw [gf_miss_err hc hi hf hcache hdf hd]
              exact ⟨hc, rfl, hdf, rfl, rfl, rfl⟩
            | ok boxes =>
              rw [gf_miss_on hc hi hf hcache hdf hd]
              exact ⟨hc, rfl, hdf, rfl, rfl, rfl⟩
    · rw [gf_out_of_range hc hi]; exact ⟨hc, rfl, rfl, rfl, rfl, rfl⟩

/-- The compositor never reads its `detected_faces` argument. -/
theorem apply_blur_detected_irrel (g : Gauss) (m : BlurManager) (f : Frame)
    (d1 d2 : Option (List Box)) (idx : Option Nat) :
    apply_blur g m f d1 idx = apply_blur g m f d2 idx := rfl

/-- Two processor states that agree on everything except the detection
cache (`detection_results`) and the current detections
(`detected_faces`). -/
def SameExceptDetection (a b : VideoProcessor) : Prop :=
  a.blur = b.blur ∧ a.cap = b.cap ∧ a.frame_count = b.frame_count ∧
  a.current_frame_idx = b.current_frame_idx ∧ a.current_frame = b.current_frame ∧
  a.processed_frames = b.processed_frames ∧ a.detect_faces = b.detect_faces

/-- With a never-raising detector, `get_frame` returns the same frame
outcome on states that differ only in detection data, and preserves the
relation. -/
theorem gf_rel {d : Detector} {a b : VideoProcessor}
    (hR : SameExceptDetection a b) (hd : ∀ fr, ∃ v, d fr = .ok v) (i : Nat) :
    (get_frame d a i).2 = (get_frame d b i).2 ∧
    SameExceptDetection (get_frame d a i).1 (get_frame d b i).1 := by
  obtain ⟨hblur, hcap, hfc, hidx, hcf, hpf, hdf⟩ := hR
  cases hca : a.cap with
  | none =>
    have hcb : b.cap = none := hcap.symm.trans hca
    rw [gf_cap_none hca, gf_cap_none hcb]
    exact ⟨rfl, hblur, hcap, hfc, hidx, hcf, hpf, hdf⟩
  | some c =>
    have hcb : b.cap = some c := hcap.symm.trans hca
    by_cases hi : i < a.frame_count
    · have hib : i < b.frame_count := hfc ▸ hi
      cases hf : c.frames i with
      | none =>
        rw [gf_read_fail hca hi hf, gf_read_fail hcb hib hf]
        exact ⟨rfl, hblur, hcap, hfc, hidx, hcf, hpf, hdf⟩
      | some f =>
        have step : ∀ (vp : VideoProcessor), vp.cap = some c → i < vp.frame_count →
            (get_frame d vp i).2 = .ok (some f) ∧
            (get_frame d vp i).1.blur = { vp.blur with current_frame_idx := i } ∧
            (get_frame d vp i).1.cap = vp.cap ∧
            (get_frame d vp i).1.frame_count = vp.frame_count ∧
            (get_frame d vp i).1.current_frame_idx = i ∧
            (get_frame d vp i).1.current_frame = some f ∧
            (get_frame d vp i).1.processed_frames = vp.processed_frames ∧
            (get_frame d vp i).1.detect_faces = vp.detect_faces := by
          intro vp hc hilt
          cases hcache : vp.detection_results i with
          | some cached =>
            rw [gf_hit hc hilt hf hcache]
            exact ⟨rfl, rfl, rfl, rfl, rfl, rfl, rfl, rfl⟩
          | none =>
            cases hdfv : vp.detect_faces with
            | false =>
              rw [gf_miss_off hc hilt hf hcache hdfv]
              exact ⟨rfl, rfl, rfl, rfl, rfl, rfl, rfl, hdfv⟩
            | true =>
              obtain ⟨v, hv⟩ := hd f
              rw [gf_miss_on hc hilt hf hcache hdfv hv]
              exact ⟨rfl, rfl, rfl, rfl, rfl, rfl, rfl, hdfv⟩
        obtain ⟨ha2, hab, hacap, hafc, haidx, hacf, hapf, hadf⟩ := step a hca hi
        obtain ⟨hb2, hbb, hbcap, hbfc, hbidx, hbcf, hbpf, hbdf⟩ := step b hcb hib
        refine ⟨ha2.trans hb2.symm, ?_, ?_, ?_, ?_, ?_, ?_, ?_⟩
        · rw [hab, hbb, hblur]
        · rw [hacap, hbcap]; exact hcap
        · rw [hafc, hbfc]; exact hfc
        · rw [haidx, hbidx]
        · rw [hacf, hbcf]
        · rw [hapf, hbpf]; exact hpf
        · rw [hadf, hbdf]; exact hdf
    · have hib : ¬ i < b.frame_count := by rw [← hfc]; exact hi
      rw [gf_out_of_range hca hi, gf_out_of_range hcb hib]
      exact ⟨rfl, hblur, hcap, hfc, hidx, hcf, hpf, hdf⟩

/-- The export loop does not change the capture or the frame count. -/
theorem sl_preserved (d : Detector) (g : Gauss) (cb : Callback) (total : Nat) :
    ∀ (l : List Nat) (vp : VideoProcessor) (out : Sink),
      (save_loop d g cb total l vp out).1.cap = vp.cap ∧
      (save_loop d g cb total l vp out).1.frame_count = vp.frame_count := by
  intro l
  induction l with
  | nil => intro vp out; exact ⟨rfl, rfl⟩
  | cons i rest ih =>
    intro vp out
    simp only [save_loop]
    cases hra : (get_frame d vp i).2 with
    | error e => exact ⟨(gf_preserved d vp i).1, (gf_preserved d vp i).2.1⟩
    | ok of =>
      cases of with
      | none =>
        exact ⟨(ih _ _).1.trans (gf_preserved d vp i).1,
          (ih _ _).2.trans (gf_preserved d vp i).2.1⟩
      | some f =>
        cases hcb : cb (i + 1) total with
        | error e => exact ⟨(gf_preserved d vp i).1, (gf_preserved d vp i).2.1⟩
        | ok u =>
          exact ⟨(ih _ _).1.trans (gf_preserved d vp i).1,
            (ih _ _).2.trans (gf_preserved d vp i).2.1⟩

/-- With a never-raising detector, the export loop writes the same
frames (and finishes with the same outcome) on states differing only in
detection data, and preserves the relation. -/
theorem sl_rel (d : Detector) (g : Gauss) (cb : Callback) (total : Nat)
    (hd : ∀ fr, ∃ v, d fr = .ok v) :
    ∀ (l : List Nat) (a b : VideoProcessor) (out : Sink), SameExceptDetection a b →
      (save_loop d g cb total l a out).2 = (save_loop d g cb total l b out).2 ∧
      SameExceptDetection (save_loop d g cb total l a out).1
        (save_loop d g cb total l b out).1 := by
  intro l
  induction l with
  | nil => intro a b out hR; exact ⟨rfl, hR⟩
  | cons i rest ih =>
    intro a b out hR
    obtain ⟨h2, hR1⟩ := gf_rel hR hd i
    simp only [save_loop]
    rw [← h2]
    cases hra : (get_frame d a i).2 with
    | error e => exact ⟨rfl, hR1⟩
    | ok of =>
      cases of with
      | none => exact ih (get_frame d a i).1 (get_frame d b i).1 out hR1
      | some f =>
        dsimp only
        have hab : apply_blur g (get_frame d a i).1.blur f
              (((get_frame d a i).1.detection_results i).getD none) (some i)
            = apply_blur g (get_frame d b i).1.blur f
              (((get_frame d b i).1.detection_results i).getD none) (some i) :=
          (apply_blur_detected_irrel g (get_frame d a i).1.blur f _ _ (some i)).trans
            (by rw [hR1.1])
        rw [hab]
        have hRv : SameExceptDetection
            { (get_frame d a i).1 with
                blur := (apply_blur g (get_frame d b i).1.blur f
                  (((get_frame d b i).1.detection_results i).getD none) (some i)).1 }
            { (get_frame d b i).1 with
                blur := (apply_blur g (get_frame d b i).1.blur f
                  (((get_frame d b i).1.detection_results i).getD none) (some i)).1 } :=
          ⟨rfl, hR1.2.1, hR1.2.2.1, hR1.2.2.2.1, hR1.2.2.2.2.1,
            hR1.2.2.2.2.2.1, hR1.2.2.2.2.2.2⟩
        cases hcb : cb (i + 1) total with
        | error e => exact ⟨rfl, hRv⟩
        | ok u => exact ih _ _ _ hRv

/-- The sink `save_video` returns is always the released loop sink
(when a capture is present). -/
theorem sv_sink {d : Detector} {g : Gauss} {cb : Callback} {vp : VideoProcessor}
    {out0 : Sink} {c : Cap} (hc : vp.cap = some c) :
    (save_video d g cb vp out0).2.1
      = release_sink
          (save_loop d g cb vp.frame_count (List.range vp.frame_count) vp out0).2.1 := by
  simp only [save_video, hc]
  split
  · rfl
  · split <;> rfl

/-- The processor state `save_video` returns is always the state after
the restoring `get_frame` at the pre-export index (when a capture is
present). -/
theorem sv_state {d : Detector} {g : Gauss} {cb : Callback} {vp : VideoProcessor}
    {out0 : Sink} {c : Cap} (hc : vp.cap = some c) :
    (save_video d g cb vp out0).1
      = (get_frame d
          (save_loop d g cb vp.frame_count (List.range vp.frame_count) vp out0).1
          vp.current_frame_idx).1 := by
  simp only [save_video, hc]
  split
  · rfl
  · split <;> rfl

/-- `save_video` without a loaded video returns `false` touching
nothing. -/
theorem sv_none {d : Detector} {g : Gauss} {cb : Callback} {vp : VideoProcessor}
    {out0 : Sink} (hc : vp.cap = none) :
    save_video d g cb vp out0 = (vp, out0, .ok false) := by
  simp [save_video, hc]

/-- `open_video` on an open capture whose first read fails. -/
theorem ov_read_fail {d : Detector} {vp : VideoProcessor} {c : Cap}
    (hopen : c.isOpened = true) (hf : c.frames 0 = none) :
    open_video d vp c
      = ({ vp with
            cap := some c
            frame_count := c.frame_count
            current_frame_idx := 0
            processed_frames := fun _ => none
            detection_results := fun _ => none
            detected_faces := none }, .ok true) := by
  simp [open_video, hopen, hf]

/-- `open_video` on an open capture with detection disabled. -/
theorem ov_off {d : Detector} {vp : VideoProcessor} {c : Cap} {f : Frame}
    (hopen : c.isOpened = true) (hf : c.frames 0 = some f)
    (hoff : vp.detect_faces = false) :
    open_video d vp c
      = ({ vp with
            cap := some c
            frame_count := c.frame_count
            current_frame_idx := 0
            processed_frames := fun _ => none
            detection_results := fun _ => none
            detected_faces := none
            current_frame := some f
            blur := { vp.blur with current_frame_idx := 0 } }, .ok true) := by
  simp [open_video, hopen, hf, hoff]

/-- `open_video` on an open capture with detection enabled and a
succeeding detector: the result is cached under index 0. -/
theorem ov_on {d : Detector} {vp : VideoProcessor} {c : Cap} {f : Frame}
    {boxes : Option (List Box)}
    (hopen : c.isOpened = true) (hf : c.frames 0 = some f)
    (hon : vp.detect_faces = true) (hd : d f = .ok boxes) :
    open_video d vp c
      = ({ vp with
            cap := some c
            frame_count := c.frame_count
            current_frame_idx := 0
            processed_frames := fun _ => none
            detection_results := fun j => if j = 0 then some boxes else none
            detected_faces := boxes
            current_frame := some f
            blur := { vp.blur with current_frame_idx := 0 } }, .ok true) := by
  simp [open_video, hopen, hf, hon, hd]

/-- `open_video` on an open capture with detection enabled and a
raising detector: the exception propagates after the caches were
cleared. -/
theorem ov_err {d : Detector} {vp : VideoProcessor} {c : Cap} {f : Frame} {e : String}
    (hopen : c.isOpened = true) (hf : c.frames 0 = some f)
    (hon : vp.detect_faces = true) (hd : d f = .error e) :
    open_video d vp c
      = ({ vp with
            cap := some c
            frame_count := c.frame_count
            current_frame_idx := 0
            processed_frames := fun _ => none
            detection_results := fun _ => none
            detected_faces := none
            current_frame := some f
            blur := { vp.blur with current_frame_idx := 0 } }, .error e) := by
  simp [open_video, hopen, hf, hon, hd]

/-- C4 (amended): opening a video source that is actually open clears
the render cache entirely and clears the detection cache at every index
other than 0 (index 0 may be repopulated at once with the first frame's
detections when detection is enabled; with detection disabled the
detection cache ends fully empty and open returns true), while the
ledger's manual and automatic collections are left exactly as they
were — they are not cleared. -/
theorem c4_open_clears_caches_not_ledger
    (d : Detector) (vp : VideoProcessor) (c : Cap) (hopen : c.isOpened = true) :
    (open_video d vp c).1.blur.manual_regions = vp.blur.manual_regions ∧
    (open_video d vp c).1.blur.detected_regions = vp.blur.detected_regions ∧
    (open_video d vp c).1.processed_frames = (fun _ => none) ∧
    (∀ j, j ≠ 0 → (open_video d vp c).1.detection_results j = none) ∧
    (vp.detect_faces = false →
      (open_video d vp c).2 = .ok true ∧
      (open_video d vp c).1.detection_results = (fun _ => none)) := by
  cases hf : c.frames 0 with
  | none =>
    rw [ov_read_fail hopen hf]
    exact ⟨rfl, rfl, rfl, fun j _ => rfl, fun _ => ⟨rfl, rfl⟩⟩
  | some f =>
    cases hdf : vp.detect_faces with
    | false =>
      rw [ov_off hopen hf hdf]
      exact ⟨rfl, rfl, rfl, fun j _ => rfl, fun _ => ⟨rfl, rfl⟩⟩
    | true =>
      cases hd : d f with
      | error e =>
        rw [ov_err hopen hf hdf hd]
        exact ⟨rfl, rfl, rfl, fun j _ => rfl, fun h => Bool.noConfusion h⟩
      | ok boxes =>
        rw [ov_on hopen hf hdf hd]
        refine ⟨rfl, rfl, rfl, fun j hj => by simp [hj], fun h => Bool.noConfusion h⟩

/-- C4 witness: `c4_open_clears_caches_not_ledger` applied to the
populated-ledger state and the open one-frame capture, hypotheses
discharged by `rfl`/`decide`. -/
theorem c4_open_clears_caches_not_ledger_witness :
    cOpen1.isOpened = true ∧ (5 : Nat) ≠ 0 ∧ vpWithLedger.detect_faces = false ∧
    (open_video dNone vpWithLedger cOpen1).1.blur.manual_regions
      = vpWithLedger.blur.manual_regions ∧
    (open_video dNone vpWithLedger cOpen1).1.detection_results 5 = none ∧
    (open_video dNone vpWithLedger cOpen1).2 = .ok true := by
  have h := c4_open_clears_caches_not_ledger dNone vpWithLedger cOpen1 rfl
  exact ⟨rfl, by decide, rfl, h.1, h.2.2.2.1 5 (by decide), (h.2.2.2.2 rfl).1⟩

/-- C5 (amended): for a readable in-range frame — when a
detection-cache entry exists for the index, `get_frame` serves it
unchanged regardless of the current detection mode, leaves the cache
untouched, and is independent of the detector collaborator; on a miss
with detection enabled the detector's filtered result (possibly `None`)
is stored under the index; on a miss with detection disabled the
current detections are set to `None` but nothing is stored, so a later
lookup at the same index is still a miss. -/
theorem c5_detection_cache_behavior
    (d : Detector) (vp : VideoProcessor) (i : Nat) (c : Cap) (f : Frame)
    (hc : vp.cap = some c) (hi : i < vp.frame_count) (hf : c.frames i = some f) :
    (∀ cached, vp.detection_results i = some cached →
      (get_frame d vp i).1.detected_faces = cached ∧
      (get_frame d vp i).1.detection_results = vp.detection_results ∧
      (get_frame d vp i).2 = .ok (some f) ∧
      ∀ d2 : Detector, get_frame d vp i = get_frame d2 vp i) ∧
    (∀ boxes, vp.detection_results i = none → vp.detect_faces = true →
      d f = .ok boxes →
      (get_frame d vp i).1.detection_results i = some boxes ∧
      (get_frame d vp i).1.detected_faces = boxes ∧
      (get_frame d vp i).2 = .ok (some f)) ∧
    (vp.detection_results i = none → vp.detect_faces = false →
      (get_frame d vp i).1.detection_results = vp.detection_results ∧
      (get_frame d vp i).1.detected_faces = none ∧
      (get_frame d vp i).2 = .ok (some f)) := by
  refine ⟨?_, ?_, ?_⟩
  · intro cached hcache
    rw [gf_hit hc hi hf hcache]
    exact ⟨rfl, rfl, rfl, fun d2 => (gf_hit hc hi hf hcache).symm⟩
  · intro boxes hcache hon hd2
    rw [gf_miss_on hc hi hf hcache hon hd2]
    exact ⟨by simp, rfl, rfl⟩
  · intro hcache hoff
    rw [gf_miss_off hc hi hf hcache hoff]
    exact ⟨rfl, rfl, rfl⟩

/-- C5 witness: the miss-with-detection-disabled conjunct of
`c5_detection_cache_behavior` at the concrete loaded state, hypotheses
discharged by `rfl`/`decide`. -/
theorem c5_detection_cache_behavior_witness :
    vpLoaded.cap = some cOpen1 ∧ 0 < vpLoaded.frame_count ∧
    cOpen1.frames 0 = some zeroFrame ∧ vpLoaded.detection_results 0 = none ∧
    vpLoaded.detect_faces = false ∧
    (get_frame dFail vpLoaded 0).1.detection_results = vpLoaded.detection_results ∧
    (get_frame dFail vpLoaded 0).1.detected_faces = none ∧
    (get_frame dFail vpLoaded 0).2 = .ok (some zeroFrame) := by
  have h := (c5_detection_cache_behavior dFail vpLoaded 0 cOpen1 zeroFrame rfl
    (by decide) rfl).2.2 rfl rfl
  exact ⟨rfl, by decide, rfl, rfl, rfl, h.1, h.2.1, h.2.2⟩

/-- C7 (amended): with a capture present, `save_video` releases the
sink on every exit path — normal completion and any exception raised by
the detector or the progress callback during the loop alike — and
restores the read position to the pre-export index provided that index
is in range and its frame reads successfully at restore time (the
counterexample shows the position staying where the loop left it when
that restoring read fails). -/
theorem c7_export_releases_and_restores
    (d : Detector) (g : Gauss) (cb : Callback) (vp : VideoProcessor)
    (out0 : Sink) (c : Cap) (f : Frame)
    (hc : vp.cap = some c)
    (hi : vp.current_frame_idx < vp.frame_count)
    (hf : c.frames vp.current_frame_idx = some f) :
    (save_video d g cb vp out0).2.1.released = true ∧
    (save_video d g cb vp out0).1.current_frame_idx = vp.current_frame_idx := by
  constructor
  · rw [sv_sink hc]
    rfl
  · rw [sv_state hc]
    have hpres := sl_preserved d g cb vp.frame_count (List.range vp.frame_count) vp out0
    exact gf_idx_set (hpres.1.trans hc) (by rw [hpres.2]; exact hi) hf

/-- C7 witness: `c7_export_releases_and_restores` at the concrete
loaded one-frame state, hypotheses discharged by `rfl`/`decide`. -/
theorem c7_export_releases_and_restores_witness :
    vpLoaded.cap = some cOpen1 ∧
    vpLoaded.current_frame_idx < vpLoaded.frame_count ∧
    cOpen1.frames vpLoaded.current_frame_idx = some zeroFrame ∧
    (save_video dNone gId cbOk vpLoaded openSink).2.1.released = true ∧
    (save_video dNone gId cbOk vpLoaded openSink).1.current_frame_idx
      = vpLoaded.current_frame_idx := by
  have h := c7_export_releases_and_restores dNone gId cbOk vpLoaded openSink cOpen1
    zeroFrame rfl (by decide) rfl
  exact ⟨rfl, by decide, rfl, h.1, h.2⟩

/-- C10 counterexample: detector exceptions propagate during export,
so with a raising detector and detection enabled, a detection-cache
entry that was never materialized into the ledger changes which frames
are written — the empty-cache export hits the detector mid-loop,
aborts and writes nothing, while the export from the state differing
only in its detection data takes a cache hit, completes and writes one
frame. -/
theorem c10_raising_detector_cex :
    SameExceptDetection vpLoadedDetect vpLoadedCachedDetect ∧
    (save_video dFail gId cbOk vpLoadedDetect openSink).2.1.frames.length = 0 ∧
    (save_video dFail gId cbOk vpLoadedDetect openSink).2.2
      = .error "detector failure" ∧
    (save_video dFail gId cbOk vpLoadedCachedDetect openSink).2.1.frames.length = 1 ∧
    (save_video dFail gId cbOk vpLoadedCachedDetect openSink).2.2 = .ok true :=
  ⟨⟨rfl, rfl, rfl, rfl, rfl, rfl, rfl⟩, by decide, by decide, by decide, by decide⟩

/-- C10 (amended): the compositor's `detected_faces` argument is dead —
two calls differing only in it produce identical ledger state and
identical output frame — and, provided the detector never raises,
exports from two states that differ only in the detection cache and
current detections (entries never materialized into the ledger) write
exactly the same frame sequence to the sink; with a raising detector a
cache entry can turn a fatal mid-export miss into a hit and change the
written frames. -/
theorem c10_detected_faces_dead :
    (∀ (g : Gauss) (m : BlurManager) (f : Frame) (d1 d2 : Option (List Box))
        (idx : Option Nat),
      apply_blur g m f d1 idx = apply_blur g m f d2 idx) ∧
    (∀ (d : Detector) (g : Gauss) (cb : Callback) (a b : VideoProcessor) (out : Sink),
      (∀ fr, ∃ v, d fr = .ok v) → SameExceptDetection a b →
      (save_video d g cb a out).2.1.frames = (save_video d g cb b out).2.1.frames) := by
  refine ⟨apply_blur_detected_irrel, ?_⟩
  intro d g cb a b out hd hR
  obtain ⟨hblur, hcap, hfc, hidx, hcf, hpf, hdf⟩ := hR
  cases hca : a.cap with
  | none =>
    have hcb : b.cap = none := hcap.symm.trans hca
    rw [sv_none hca, sv_none hcb]
  | some c =>
    have hcb : b.cap = some c := hcap.symm.trans hca
    rw [sv_sink hca, sv_sink hcb, ← hfc]
    have hL := (sl_rel d g cb a.frame_count hd (List.range a.frame_count) a b out
      ⟨hblur, hcap, hfc, hidx, hcf, hpf, hdf⟩).1
    rw [congrArg Prod.fst hL]

/-- C10 witness: both conjuncts of `c10_detected_faces_dead` at
concrete inputs — differing `detected_faces` arguments for the
compositor, and a detection cache populated at index 0 versus empty for
the export — hypotheses discharged by explicit terms. -/
theorem c10_detected_faces_dead_witness :
    (∀ fr, ∃ v, dNone fr = .ok v) ∧
    SameExceptDetection vpLoaded vpLoadedCached ∧
    apply_blur gId emptyBM zeroFrame (some [⟨1, 2, 3, 4⟩]) (some 0)
      = apply_blur gId emptyBM zeroFrame none (some 0) ∧
    (save_video dNone gId cbOk vpLoaded openSink).2.1.frames
      = (save_video dNone gId cbOk vpLoadedCached openSink).2.1.frames :=
  ⟨fun _ => ⟨none, rfl⟩, ⟨rfl, rfl, rfl, rfl, rfl, rfl, rfl⟩,
    c10_detected_faces_dead.1 gId emptyBM zeroFrame (some [⟨1, 2, 3, 4⟩]) none (some 0),
    c10_detected_faces_dead.2 dNone gId cbOk vpLoaded vpLoadedCached openSink
      (fun _ => ⟨none, rfl⟩) ⟨rfl, rfl, rfl, rfl, rfl, rfl, rfl⟩⟩

end FaceBlur
